import Mathlib

/-!
Verification of the celestial-mechanics core of PyCelestialObjects / Dobby.

The Python source is embedded shallowly: floating-point arithmetic is
idealised as real arithmetic (integer/rational arithmetic is kept exact),
and calls that can raise in Python (`math.asin`/`math.acos` on arguments
outside [-1, 1], float division by zero) are modelled as `Option`-valued
operations returning `none` where Python raises.
-/

namespace Dobby

/-- Star record, after the `Star` namedtuple of the source
(`Rank, Name, Beyer, Mag_v, RA, DEC, Alt, Az`). -/
structure Star where
  Rank : ℤ
  Name : String
  Beyer : String
  Mag_v : ℝ
  RA : ℝ
  DEC : ℝ
  Alt : ℝ
  Az : ℝ

/-- Embedding of Python's `math.radians(x)`: degrees to radians. -/
noncomputable def radiansOf (x : ℝ) : ℝ := x * Real.pi / 180

/-- Embedding of `deg2rad(angle)` from the source: `math.pi * angle / 180`. -/
noncomputable def deg2rad (a : ℝ) : ℝ := Real.pi * a / 180

/-- Embedding of `rad2deg(angle)` from the source: `180 * angle / math.pi`. -/
noncomputable def rad2deg (a : ℝ) : ℝ := 180 * a / Real.pi

/-- Embedding of `cartesian(star)` from the source: the unit-sphere
cartesian coordinates of a star's (Alt, Az) position. -/
noncomputable def cartesian (star : Star) : ℝ × ℝ × ℝ :=
  (Real.cos (radiansOf star.Alt) * Real.cos (radiansOf star.Az),
   Real.cos (radiansOf star.Alt) * Real.sin (radiansOf star.Az),
   Real.sin (radiansOf star.Alt))

/-- Embedding of `vector_product(v1, v2)` from the source: the cross
product of two 3-vectors. -/
def vector_product (v1 v2 : ℝ × ℝ × ℝ) : ℝ × ℝ × ℝ :=
  (v1.2.1 * v2.2.2 - v1.2.2 * v2.2.1,
   v1.2.2 * v2.1 - v1.1 * v2.2.2,
   v1.1 * v2.2.1 - v1.2.1 * v2.1)

/-- Embedding of `vector_norm(v)` from the source: square root of the sum
of squared components. -/
noncomputable def vector_norm (v : ℝ × ℝ × ℝ) : ℝ :=
  Real.sqrt (v.1 ^ 2 + v.2.1 ^ 2 + v.2.2 ^ 2)

/-- Embedding of `area(s1, s2, s3)` from the source. Note that the source
builds `edge2` with the z-component `v1[2] - v2[2]` (it subtracts the z of
the SECOND star, not of the third), and this embedding reproduces that
exactly. -/
noncomputable def area (s1 s2 s3 : Star) : ℝ :=
  let v1 := cartesian s1
  let v2 := cartesian s2
  let v3 := cartesian s3
  let edge1 := (v1.1 - v2.1, v1.2.1 - v2.2.1, v1.2.2 - v2.2.2)
  let edge2 := (v1.1 - v3.1, v1.2.1 - v3.2.1, v1.2.2 - v2.2.2)
  0.5 * vector_norm (vector_product edge1 edge2)

/-- Modelled from the spec: the triangle-area formula as the specification
states it, `0.5 × ‖(p1 − p2) × (p1 − p3)‖` over the cartesian projections.
This is the comparison point for the `area` function of the source; the
two differ exactly in the z-component of the second edge. -/
noncomputable def areaSpecFormula (s1 s2 s3 : Star) : ℝ :=
  let v1 := cartesian s1
  let v2 := cartesian s2
  let v3 := cartesian s3
  let edge1 := (v1.1 - v2.1, v1.2.1 - v2.2.1, v1.2.2 - v2.2.2)
  let edge2 := (v1.1 - v3.1, v1.2.1 - v3.2.1, v1.2.2 - v3.2.2)
  0.5 * vector_norm (vector_product edge1 edge2)

/-- Model of Python's `math.asin`: raises `ValueError` (here `none`) when
the argument lies outside [-1, 1], otherwise returns the arcsine. -/
noncomputable def asinSafe (x : ℝ) : Option ℝ :=
  if 1 < |x| then none else some (Real.arcsin x)

/-- Model of Python's `math.acos`: raises `ValueError` (here `none`) when
the argument lies outside [-1, 1], otherwise returns the arccosine. -/
noncomputable def acosSafe (x : ℝ) : Option ℝ :=
  if 1 < |x| then none else some (Real.arccos x)

/-- Model of Python's float division: raises `ZeroDivisionError` (here
`none`) when the denominator is zero. -/
noncomputable def divSafe (a b : ℝ) : Option ℝ :=
  if b = 0 then none else some (a / b)

/-- Embedding of `angle(s1, s2)` from the source: the angular separation
of two stars, `acos` applied to the unclamped cosine expression. -/
noncomputable def angle (s1 s2 : Star) : Option ℝ :=
  acosSafe (Real.cos (radiansOf s1.Alt) * Real.cos (radiansOf s2.Alt) *
      Real.cos (radiansOf s1.Az - radiansOf s2.Az) +
    Real.sin (radiansOf s1.Alt) * Real.sin (radiansOf s2.Alt))

/-- Embedding of `RA_DEC_to_ALT_AZ(raD, decD, haD, latD)` from the source.
The `raD` argument is accepted and unused, as in the source. The azimuth
step divides by `cos(alt) * cos(lat)` without any guard, so the model
returns `none` (Python raises) when that product is zero or when an
inverse-trig argument leaves [-1, 1]. -/
noncomputable def RA_DEC_to_ALT_AZ (raD decD haD latD : ℝ) : Option (ℝ × ℝ) :=
  let _ := raD
  let dec := deg2rad decD
  let ha := deg2rad haD
  let lat := deg2rad latD
  let sin_alt := Real.sin dec * Real.sin lat + Real.cos dec * Real.cos lat * Real.cos ha
  (asinSafe sin_alt).bind fun alt =>
    (divSafe (Real.sin dec - Real.sin alt * Real.sin lat)
        (Real.cos alt * Real.cos lat)).bind fun cos_a =>
      (acosSafe cos_a).bind fun a =>
        if Real.sin ha < 0 then some (rad2deg alt, rad2deg a)
        else some (rad2deg alt, 360 - rad2deg a)

/-- Embedding of `HMS_to_decimal_time(hours, minutes, seconds)` from the
source, over exact rationals. -/
def HMS_to_decimal_time (hours minutes seconds : ℚ) : ℚ :=
  hours + minutes / 60 + seconds / 3600

/-- Embedding of `days_from_J2000_until_year(year)` from the source.
Python's integer floor division `//` is `Int.fdiv`. -/
def days_from_J2000_until_year (year : ℤ) : ℚ :=
  (((year - 1998) * 365 + (year - 1998 + 1).fdiv 4 : ℤ) : ℚ) - 731.5

/-- Embedding of `days_until_month_begins(year, month)` from the source:
the `DAYS_TIL_MONTH` table plus the divisible-by-4 leap correction. -/
def days_until_month_begins (year month : ℤ) : ℤ :=
  let table : ℤ :=
    if month = 1 then 0
    else if month = 2 then 31
    else if month = 3 then 59
    else if month = 4 then 90
    else if month = 5 then 120
    else if month = 6 then 151
    else if month = 7 then 181
    else if month = 8 then 212
    else if month = 9 then 243
    else if month = 10 then 273
    else if month = 11 then 304
    else 334
  if year % 4 = 0 ∧ 2 < month then table + 1 else table

/-- Embedding of `days_from_J2000(year, month, day, hours, minutes,
seconds)` from the source. -/
def days_from_J2000 (year month day : ℤ) (hours minutes seconds : ℚ) : ℚ :=
  days_from_J2000_until_year year +
    ((days_until_month_begins year month + day : ℤ) : ℚ) +
    HMS_to_decimal_time hours minutes seconds / 24

/-- Descending order on a real-valued key: `a` may precede `b` exactly when
`key b ≤ key a`. Python's `sorted(..., key=key, reverse=True)` is the
stable sort by this relation. -/
def descOn {α : Type} (key : α → ℝ) : α → α → Prop :=
  fun a b => key b ≤ key a

noncomputable instance {α : Type} (key : α → ℝ) : DecidableRel (descOn key) :=
  fun a b => inferInstanceAs (Decidable (key b ≤ key a))

/-- Model of Python's `sorted(l, key=key, reverse=True)`: the stable
descending sort by `key`, realised as insertion sort (stable sorts by the
same key produce identical outputs). -/
noncomputable def sortDesc {α : Type} (key : α → ℝ) (l : List α) : List α :=
  List.insertionSort (descOn key) l

/-- Embedding of the triple enumeration of `best_stars`:
`itertools.combinations(range(n), 3)` yields exactly the `(i, j, k)` with
`i < j < k < n`, in lexicographic order. -/
def combos3 (n : ℕ) : List (ℕ × ℕ × ℕ) :=
  (List.range n).flatMap fun i =>
    (List.range n).flatMap fun j =>
      (List.range n).filterMap fun k =>
        if i < j ∧ j < k then some (i, j, k) else none

/-- Default star used for total list indexing (indices produced by
`combos3` are always in range). -/
def dummyStar : Star := ⟨0, "", "", 0, 0, 0, 0, 0⟩

/-- Embedding of the `triples` dictionary of `best_stars`: every
3-combination of indices paired with the area of the triangle the three
indexed stars span. -/
noncomputable def starTriples (stars : List Star) : List ((ℕ × ℕ × ℕ) × ℝ) :=
  (combos3 stars.length).map fun c =>
    (c, area (stars.getD c.1 dummyStar) (stars.getD c.2.1 dummyStar)
        (stars.getD c.2.2 dummyStar))

/-- Embedding of `triples_sorted` of `best_stars`:
`sorted(triples.items(), key=lambda tr: tr[1], reverse=True)`. -/
noncomputable def triples_sorted (stars : List Star) : List ((ℕ × ℕ × ℕ) × ℝ) :=
  sortDesc (fun tr => tr.2) (starTriples stars)

/-- The `NUMBER` constant of `best_stars`. -/
def NUMBER : ℕ := 15

/-- Embedding of `best_stars(stars)`: the sequence of triples the function
lists, i.e. the first `NUMBER` entries of the sorted triples. -/
noncomputable def best_stars (stars : List Star) : List ((ℕ × ℕ × ℕ) × ℝ) :=
  (triples_sorted stars).take NUMBER

/-- The `LOW_ANGLE` constant of the source. -/
noncomputable def LOW_ANGLE : ℝ := 20

/-- Embedding of the filtering loop of `get_suitable_stars`: keep the
stars whose altitude is at least the threshold, in catalog order. -/
noncomputable def filterVisible (minAlt : ℝ) : List Star → List Star
  | [] => []
  | s :: rest =>
    if minAlt ≤ s.Alt then s :: filterVisible minAlt rest
    else filterVisible minAlt rest

/-- Core of `get_suitable_stars`, parametrised over the altitude
threshold: filter, then `sorted(suitable, key=lambda s: s.Alt,
reverse=True)`. -/
noncomputable def suitable_sorted (minAlt : ℝ) (all_stars : List Star) : List Star :=
  sortDesc (fun s => s.Alt) (filterVisible minAlt all_stars)

/-- Embedding of `get_suitable_stars()` applied to the loaded star list
(catalog loading is external I/O): the threshold is `LOW_ANGLE`. -/
noncomputable def get_suitable_stars (all_stars : List Star) : List Star :=
  suitable_sorted LOW_ANGLE all_stars

/-- Lexicographic order on index triples; `combos3` enumerates in this
order, which is therefore the tie-break order of the stable sort. -/
def lex3 (a b : ℕ × ℕ × ℕ) : Prop :=
  a.1 < b.1 ∨ (a.1 = b.1 ∧ (a.2.1 < b.2.1 ∨ (a.2.1 = b.2.1 ∧ a.2.2 < b.2.2)))

/-- Concrete star at altitude 0°, azimuth 0°; cartesian (1, 0, 0). -/
def SA : Star := ⟨0, "", "", 0, 0, 0, 0, 0⟩

/-- Concrete star at altitude 90°, azimuth 0°; cartesian (0, 0, 1). -/
def SB : Star := ⟨0, "", "", 0, 0, 0, 90, 0⟩

/-- Concrete star at altitude 0°, azimuth 90°; cartesian (0, 1, 0). -/
def SC : Star := ⟨0, "", "", 0, 0, 0, 0, 90⟩

lemma radiansOf_zero : radiansOf 0 = 0 := by
  show (0 : ℝ) * Real.pi / 180 = 0
  ring

lemma radiansOf_ninety : radiansOf 90 = Real.pi / 2 := by
  show (90 : ℝ) * Real.pi / 180 = Real.pi / 2
  ring

lemma cartesian_SA : cartesian SA = (1, 0, 0) := by
  simp [cartesian, SA, radiansOf_zero]

lemma cartesian_SB : cartesian SB = (0, 0, 1) := by
  simp [cartesian, SB, radiansOf_zero, radiansOf_ninety]

lemma cartesian_SC : cartesian SC = (0, 1, 0) := by
  simp [cartesian, SC, radiansOf_zero, radiansOf_ninety]

lemma area_SA_SB_SC : area SA SB SC = Real.sqrt 2 / 2 := by
  simp only [area, cartesian_SA, cartesian_SB, cartesian_SC, vector_product, vector_norm]
  norm_num
  ring

lemma areaSpecFormula_SA_SB_SC : areaSpecFormula SA SB SC = Real.sqrt 3 / 2 := by
  simp only [areaSpecFormula, cartesian_SA, cartesian_SB, cartesian_SC, vector_product,
    vector_norm]
  norm_num
  ring

lemma area_SB_SA_SC : area SB SA SC = Real.sqrt 3 / 2 := by
  simp only [area, cartesian_SA, cartesian_SB, cartesian_SC, vector_product, vector_norm]
  norm_num
  ring

lemma sqrt_two_lt_sqrt_three : Real.sqrt 2 < Real.sqrt 3 :=
  Real.sqrt_lt_sqrt (by norm_num) (by norm_num)

section SortLemmas

variable {α : Type}

lemma sortDesc_perm (key : α → ℝ) (l : List α) : List.Perm (sortDesc key l) l :=
  List.perm_insertionSort _ l

lemma mem_sortDesc (key : α → ℝ) {l : List α} {x : α} :
    x ∈ sortDesc key l ↔ x ∈ l :=
  (sortDesc_perm key l).mem_iff

lemma sortDesc_sorted (key : α → ℝ) (l : List α) :
    (sortDesc key l).Pairwise fun a b => key b ≤ key a := by
  haveI : IsTotal α (descOn key) := ⟨fun a b => le_total (key b) (key a)⟩
  haveI : IsTrans α (descOn key) := ⟨fun _ _ _ h1 h2 => le_trans h2 h1⟩
  exact List.sorted_insertionSort (descOn key) l

lemma orderedInsert_pairwise_stable (key : α → ℝ) (P : α → α → Prop) {x : α} {l : List α}
    (hx : ∀ y ∈ l, P x y)
    (hl : l.Pairwise fun a b => key b < key a ∨ P a b) :
    (List.orderedInsert (descOn key) x l).Pairwise fun a b => key b < key a ∨ P a b := by
  induction l with
  | nil => simp
  | cons y ys ih =>
    rw [List.orderedInsert]
    by_cases hxy : descOn key x y
    · rw [if_pos hxy]
      exact List.Pairwise.cons (fun z hz => Or.inr (hx z hz)) hl
    · rw [if_neg hxy]
      have hyx : key x < key y := not_le.1 hxy
      refine List.Pairwise.cons ?_
        (ih (fun z hz => hx z (List.mem_cons_of_mem _ hz)) hl.of_cons)
      intro z hz
      rcases (List.mem_orderedInsert _).1 hz with rfl | hz'
      · exact Or.inl hyx
      · exact (List.pairwise_cons.1 hl).1 z hz'

lemma sortDesc_pairwise_stable (key : α → ℝ) (P : α → α → Prop) {l : List α}
    (hl : l.Pairwise P) :
    (sortDesc key l).Pairwise fun a b => key b < key a ∨ P a b := by
  induction l with
  | nil => simp [sortDesc, List.insertionSort]
  | cons x xs ih =>
    rw [sortDesc, List.insertionSort]
    have hx : ∀ y ∈ xs, P x y := (List.pairwise_cons.1 hl).1
    have hx' : ∀ y ∈ sortDesc key xs, P x y :=
      fun y hy => hx y ((mem_sortDesc key).1 hy)
    exact orderedInsert_pairwise_stable key P hx' (ih hl.of_cons)

lemma pairwise_flatMap {β γ : Type} {R : γ → γ → Prop} {f : β → List γ} {l : List β}
    (h1 : ∀ a ∈ l, (f a).Pairwise R)
    (h2 : l.Pairwise fun a b => ∀ x ∈ f a, ∀ y ∈ f b, R x y) :
    (l.flatMap f).Pairwise R := by
  induction l with
  | nil => simp
  | cons a l ih =>
    rw [List.flatMap_cons, List.pairwise_append]
    refine ⟨h1 a (List.mem_cons_self a l),
      ih (fun b hb => h1 b (List.mem_cons_of_mem _ hb)) h2.of_cons, ?_⟩
    intro x hx y hy
    obtain ⟨b, hb, hyb⟩ := List.mem_flatMap.1 hy
    exact (List.pairwise_cons.1 h2).1 b hb x hx y hyb

end SortLemmas

/-- Claim C1: the source's `area` is claimed to return
`0.5 × ‖(p1 − p2) × (p1 − p3)‖`. It does not: on the three stars
(Alt, Az) = (0°, 0°), (90°, 0°), (0°, 90°) the source formula (whose
second edge reuses the second point's z-component) yields `√2 / 2`,
while the claimed formula yields `√3 / 2`. -/
theorem area_differs_from_spec_formula :
    area SA SB SC = Real.sqrt 2 / 2 ∧
    areaSpecFormula SA SB SC = Real.sqrt 3 / 2 ∧
    area SA SB SC ≠ areaSpecFormula SA SB SC := by
  refine ⟨area_SA_SB_SC, areaSpecFormula_SA_SB_SC, ?_⟩
  rw [area_SA_SB_SC, areaSpecFormula_SA_SB_SC]
  intro h
  have := sqrt_two_lt_sqrt_three
  linarith

/-- Claim C2: the source's `area` is claimed to be invariant under
permutation of its three arguments. It is not: on the three stars
(Alt, Az) = (0°, 0°), (90°, 0°), (0°, 90°), swapping the first two
arguments changes the result from `√2 / 2` to `√3 / 2`. -/
theorem area_not_permutation_invariant :
    area SA SB SC = Real.sqrt 2 / 2 ∧
    area SB SA SC = Real.sqrt 3 / 2 ∧
    area SA SB SC ≠ area SB SA SC := by
  refine ⟨area_SA_SB_SC, area_SB_SA_SC, ?_⟩
  rw [area_SA_SB_SC, area_SB_SA_SC]
  intro h
  have := sqrt_two_lt_sqrt_three
  linarith

/-- Claim C8: `days_from_J2000` measures fractional days from the J2000.0
epoch; evaluated at the epoch moment 2000-01-01 12:00:00 it returns
exactly 0. -/
theorem days_from_J2000_epoch_zero : days_from_J2000 2000 1 1 12 0 0 = 0 := by
  have hf : (3 : ℤ).fdiv 4 = 0 := by decide
  norm_num [days_from_J2000, days_from_J2000_until_year, days_until_month_begins,
    HMS_to_decimal_time, hf]

/-- Claim C10: the source's `angle` (angular separation of two stars) is
symmetric in its two arguments. -/
theorem angle_symmetric (s1 s2 : Star) : angle s1 s2 = angle s2 s1 := by
  unfold angle
  congr 1
  rw [show radiansOf s1.Az - radiansOf s2.Az = -(radiansOf s2.Az - radiansOf s1.Az) by ring,
    Real.cos_neg]
  ring

lemma area_nonneg (s1 s2 s3 : Star) : 0 ≤ area s1 s2 s3 := by
  unfold area vector_norm
  positivity

/-- Claim C9: the source's `area` returns a nonnegative value on every
triple of stars, and hence every score stored by the triple selector
(`best_stars`) is nonnegative. -/
theorem area_nonneg_selector :
    (∀ s1 s2 s3, 0 ≤ area s1 s2 s3) ∧
    (∀ stars : List Star, ∀ e ∈ triples_sorted stars, 0 ≤ e.2) := by
  refine ⟨area_nonneg, ?_⟩
  intro stars e he
  have he' : e ∈ starTriples stars :=
    (sortDesc_perm (fun tr : (ℕ × ℕ × ℕ) × ℝ => tr.2) (starTriples stars)).mem_iff.1 he
  obtain ⟨c, -, rfl⟩ := List.mem_map.1 he'
  exact area_nonneg _ _ _

/-- Witness for claim C9 at a concrete input: the single triple produced
from the three-star list `[SA, SA, SA]` has a nonnegative score. -/
theorem area_nonneg_selector_witness :
    0 ≤ area SB SC SA ∧
    0 ≤ ((((0, 1, 2) : ℕ × ℕ × ℕ), area SA SA SA)).2 := by
  have h := area_nonneg_selector
  refine ⟨h.1 SB SC SA, h.2 [SA, SA, SA] _ ?_⟩
  show _ ∈ triples_sorted [SA, SA, SA]
  exact List.mem_singleton_self _

lemma mem_combos3 {n : ℕ} {t : ℕ × ℕ × ℕ} :
    t ∈ combos3 n ↔ t.1 < t.2.1 ∧ t.2.1 < t.2.2 ∧ t.2.2 < n := by
  obtain ⟨i, j, k⟩ := t
  simp only [combos3, List.mem_flatMap, List.mem_filterMap, List.mem_range,
    Option.ite_none_right_eq_some, Option.some.injEq, Prod.mk.injEq]
  constructor
  · rintro ⟨a, ha, b, hb, c, hc, ⟨hab, hbc⟩, rfl, rfl, rfl⟩
    exact ⟨hab, hbc, hc⟩
  · rintro ⟨hij, hjk, hk⟩
    exact ⟨i, (hij.trans hjk).trans hk, j, hjk.trans hk, k, hk, ⟨hij, hjk⟩, rfl, rfl, rfl⟩

lemma mem_combos3_inner {n i j : ℕ} {x : ℕ × ℕ × ℕ}
    (hx : x ∈ (List.range n).filterMap fun k =>
      if i < j ∧ j < k then some (i, j, k) else none) :
    x.1 = i ∧ x.2.1 = j := by
  obtain ⟨k, -, he⟩ := List.mem_filterMap.1 hx
  rw [Option.ite_none_right_eq_some, Option.some.injEq] at he
  obtain ⟨-, rfl⟩ := he
  exact ⟨rfl, rfl⟩

lemma mem_combos3_middle {n i : ℕ} {x : ℕ × ℕ × ℕ}
    (hx : x ∈ (List.range n).flatMap fun j => (List.range n).filterMap fun k =>
      if i < j ∧ j < k then some (i, j, k) else none) :
    x.1 = i := by
  obtain ⟨j, -, hx'⟩ := List.mem_flatMap.1 hx
  exact (mem_combos3_inner hx').1

lemma pairwise_lex3_combos3 (n : ℕ) : (combos3 n).Pairwise lex3 := by
  unfold combos3
  apply pairwise_flatMap
  · intro i _
    apply pairwise_flatMap
    · intro j _
      rw [List.pairwise_filterMap]
      refine List.Pairwise.imp ?_ (List.sorted_lt_range n)
      intro k1 k2 hlt b hb b' hb'
      rw [Option.mem_def, Option.ite_none_right_eq_some, Option.some.injEq] at hb hb'
      obtain ⟨-, rfl⟩ := hb
      obtain ⟨-, rfl⟩ := hb'
      exact Or.inr ⟨rfl, Or.inr ⟨rfl, hlt⟩⟩
    · refine List.Pairwise.imp ?_ (List.sorted_lt_range n)
      intro j1 j2 hlt x hx y hy
      obtain ⟨hx1, hx2⟩ := mem_combos3_inner hx
      obtain ⟨hy1, hy2⟩ := mem_combos3_inner hy
      exact Or.inr ⟨hx1.trans hy1.symm, Or.inl (by rw [hx2, hy2]; exact hlt)⟩
  · refine List.Pairwise.imp ?_ (List.sorted_lt_range n)
    intro i1 i2 hlt x hx y hy
    exact Or.inl (by rw [mem_combos3_middle hx, mem_combos3_middle hy]; exact hlt)

lemma starTriples_map_fst (stars : List Star) :
    (starTriples stars).map Prod.fst = combos3 stars.length := by
  rw [starTriples, List.map_map]
  exact List.map_id _

lemma pairwise_lex3_starTriples (stars : List Star) :
    (starTriples stars).Pairwise fun e1 e2 => lex3 e1.1 e2.1 := by
  rw [starTriples, List.pairwise_map]
  exact pairwise_lex3_combos3 _

/-- Claim C6: the triple selector `best_stars` enumerates exactly the
3-combinations of indices `i < j < m` into the star list (each scored by
`area`, without repetition, in lexicographic enumeration order), sorts
them by area in non-increasing order with ties kept in enumeration order
(the sort is stable), and lists the first `NUMBER` of them — with any
prefix `take k` of the sorted list being sorted, of length
`min k (number of combinations)`, and the head's area being at least every
combination's area. -/
theorem best_stars_spec (stars : List Star) (k : ℕ) :
    (∀ i j m : ℕ, (i, j, m) ∈ combos3 stars.length ↔
        i < j ∧ j < m ∧ m < stars.length) ∧
    (combos3 stars.length).Pairwise lex3 ∧
    (starTriples stars).map Prod.fst = combos3 stars.length ∧
    (∀ c ∈ combos3 stars.length,
        (c, area (stars.getD c.1 dummyStar) (stars.getD c.2.1 dummyStar)
          (stars.getD c.2.2 dummyStar)) ∈ starTriples stars) ∧
    List.Perm (triples_sorted stars) (starTriples stars) ∧
    (triples_sorted stars).Pairwise (fun a b => b.2 ≤ a.2) ∧
    (triples_sorted stars).Pairwise (fun a b => b.2 < a.2 ∨ lex3 a.1 b.1) ∧
    (∀ hd, (triples_sorted stars).head? = some hd →
        ∀ e ∈ starTriples stars, e.2 ≤ hd.2) ∧
    ((triples_sorted stars).take k).Pairwise (fun a b => b.2 ≤ a.2) ∧
    ((triples_sorted stars).take k).length = min k (starTriples stars).length ∧
    best_stars stars = (triples_sorted stars).take NUMBER := by
  have hperm : List.Perm (triples_sorted stars) (starTriples stars) :=
    sortDesc_perm (fun tr : (ℕ × ℕ × ℕ) × ℝ => tr.2) (starTriples stars)
  have hsorted : (triples_sorted stars).Pairwise (fun a b => b.2 ≤ a.2) :=
    sortDesc_sorted (fun tr : (ℕ × ℕ × ℕ) × ℝ => tr.2) (starTriples stars)
  refine ⟨fun i j m => mem_combos3, pairwise_lex3_combos3 _, starTriples_map_fst stars,
    fun c hc => List.mem_map_of_mem _ hc, hperm, hsorted,
    sortDesc_pairwise_stable _ _ (pairwise_lex3_starTriples stars), ?_,
    hsorted.sublist (List.take_sublist k _), ?_, rfl⟩
  · intro hd hhd e he
    have heS : e ∈ triples_sorted stars := hperm.mem_iff.2 he
    cases hcase : triples_sorted stars with
    | nil => rw [hcase] at hhd; simp at hhd
    | cons a t =>
      rw [hcase] at heS hsorted
      have ha : a = hd := by rw [hcase] at hhd; simpa using hhd
      subst ha
      rcases List.mem_cons.1 heS with rfl | ht
      · exact le_refl _
      · exact (List.pairwise_cons.1 hsorted).1 e ht
  · rw [List.length_take, hperm.length_eq]

/-- Witness for claim C6 at a concrete input: for the three-star list
`[SA, SA, SA]` the enumeration contains the index triple (0, 1, 2), and
the head of the sorted triple list bounds that combination's area. -/
theorem best_stars_spec_witness :
    ((0, 1, 2) : ℕ × ℕ × ℕ) ∈ combos3 3 ∧ area SA SA SA ≤ area SA SA SA := by
  have h := best_stars_spec [SA, SA, SA] 15
  constructor
  · exact (h.1 0 1 2).2 (by simp)
  · exact h.2.2.2.2.2.2.2.1 ((0, 1, 2), area SA SA SA) rfl
      ((0, 1, 2), area SA SA SA) (List.mem_singleton_self _)

lemma mem_filterVisible (m : ℝ) (l : List Star) (s : Star) :
    s ∈ filterVisible m l ↔ s ∈ l ∧ m ≤ s.Alt := by
  induction l with
  | nil => simp [filterVisible]
  | cons x xs ih =>
    rw [filterVisible]
    by_cases hx : m ≤ x.Alt
    · rw [if_pos hx]
      simp only [List.mem_cons, ih]
      constructor
      · rintro (rfl | ⟨hs, hm⟩)
        · exact ⟨Or.inl rfl, hx⟩
        · exact ⟨Or.inr hs, hm⟩
      · rintro ⟨rfl | hs, hm⟩
        · exact Or.inl rfl
        · exact Or.inr ⟨hs, hm⟩
    · rw [if_neg hx, ih]
      simp only [List.mem_cons]
      constructor
      · rintro ⟨hs, hm⟩
        exact ⟨Or.inr hs, hm⟩
      · rintro ⟨rfl | hs, hm⟩
        · exact absurd hm hx
        · exact ⟨hs, hm⟩

lemma filterVisible_pairwise (m : ℝ) (P : Star → Star → Prop) {l : List Star}
    (hl : l.Pairwise P) : (filterVisible m l).Pairwise P := by
  induction l with
  | nil => simp [filterVisible]
  | cons x xs ih =>
    rw [filterVisible]
    obtain ⟨hx, hxs⟩ := List.pairwise_cons.1 hl
    by_cases hc : m ≤ x.Alt
    · rw [if_pos hc]
      exact List.Pairwise.cons
        (fun y hy => hx y ((mem_filterVisible m xs y).1 hy).1) (ih hxs)
    · rw [if_neg hc]
      exact ih hxs

/-- Claim C7: the visibility filter keeps exactly the stars whose altitude
is at least the threshold (as a sub-multiset of the input), returns them
sorted by altitude in non-increasing order, with ties keeping the input
(catalog) order because the sort is stable, and maps the empty input to
the empty output; `get_suitable_stars` is the instance at the source's
`LOW_ANGLE` threshold of 20°. -/
theorem get_suitable_stars_spec (minAlt : ℝ) (l : List Star) :
    List.Perm (suitable_sorted minAlt l) (filterVisible minAlt l) ∧
    (∀ s, s ∈ suitable_sorted minAlt l ↔ s ∈ l ∧ minAlt ≤ s.Alt) ∧
    (suitable_sorted minAlt l).Pairwise (fun a b => b.Alt ≤ a.Alt) ∧
    (∀ P : Star → Star → Prop, l.Pairwise P →
        (suitable_sorted minAlt l).Pairwise fun a b => b.Alt < a.Alt ∨ P a b) ∧
    (l = [] → suitable_sorted minAlt l = []) ∧
    get_suitable_stars l = suitable_sorted 20 l := by
  refine ⟨sortDesc_perm _ _,
    fun s => (mem_sortDesc _).trans (mem_filterVisible minAlt l s),
    sortDesc_sorted _ _,
    fun P hP => sortDesc_pairwise_stable _ _ (filterVisible_pairwise minAlt P hP),
    fun h => by rw [h]; rfl, rfl⟩

/-- Concrete star at altitude 30°, above the 20° threshold. -/
def SH : Star := ⟨0, "", "", 0, 0, 0, 30, 0⟩

/-- Concrete star at altitude 10°, below the 20° threshold. -/
def SL : Star := ⟨0, "", "", 0, 0, 0, 10, 0⟩

/-- Witness for claim C7 at a concrete input: for the list `[SH, SL]` and
threshold 20°, the 30°-star is kept, and the output satisfies the
stability shape for the trivially true pairwise relation on the input. -/
theorem get_suitable_stars_spec_witness :
    SH ∈ suitable_sorted 20 [SH, SL] ∧
    (suitable_sorted 20 [SH, SL]).Pairwise (fun a b => b.Alt < a.Alt ∨ True) := by
  have h := get_suitable_stars_spec 20 [SH, SL]
  refine ⟨(h.2.1 SH).2 ⟨List.mem_cons_self _ _, ?_⟩,
    h.2.2.2.1 (fun _ _ => True) ?_⟩
  · show (20 : ℝ) ≤ SH.Alt
    norm_num [SH]
  · simp

lemma deg2rad_zero : deg2rad 0 = 0 := by
  show Real.pi * 0 / 180 = 0
  ring

lemma deg2rad_ninety : deg2rad 90 = Real.pi / 2 := by
  show Real.pi * 90 / 180 = Real.pi / 2
  ring

lemma deg2rad_fifty : deg2rad 50 = 5 * Real.pi / 18 := by
  show Real.pi * 50 / 180 = 5 * Real.pi / 18
  ring

lemma rad2deg_zero : rad2deg 0 = 0 := by
  show (180 : ℝ) * 0 / Real.pi = 0
  rw [mul_zero, zero_div]

lemma rad2deg_pi_div_two : rad2deg (Real.pi / 2) = 90 := by
  unfold rad2deg
  field_simp
  ring

lemma rad2deg_arcsin_mem (x : ℝ) :
    -90 ≤ rad2deg (Real.arcsin x) ∧ rad2deg (Real.arcsin x) ≤ 90 := by
  have hpi := Real.pi_pos
  have h1 := Real.neg_pi_div_two_le_arcsin x
  have h2 := Real.arcsin_le_pi_div_two x
  unfold rad2deg
  constructor
  · rw [le_div_iff₀ hpi]
    nlinarith
  · rw [div_le_iff₀ hpi]
    nlinarith

lemma rad2deg_arccos_mem (x : ℝ) :
    0 ≤ rad2deg (Real.arccos x) ∧ rad2deg (Real.arccos x) ≤ 180 := by
  have hpi := Real.pi_pos
  have h1 := Real.arccos_nonneg x
  have h2 := Real.arccos_le_pi x
  unfold rad2deg
  constructor
  · positivity
  · rw [div_le_iff₀ hpi]
    nlinarith

/-- Claim C3: the source's `RA_DEC_to_ALT_AZ` does NOT guard the division
in the azimuth step. At the pole (latitude 90°, declination 0°, hour angle
0°) the denominator `cos(alt) * cos(lat)` is exactly zero and the function
raises (model: returns `none`) instead of returning a sentinel value. -/
theorem RA_DEC_to_ALT_AZ_pole_raises : RA_DEC_to_ALT_AZ 0 0 0 90 = none := by
  simp only [RA_DEC_to_ALT_AZ, deg2rad_zero, deg2rad_ninety, Real.sin_zero,
    Real.cos_zero, Real.sin_pi_div_two, Real.cos_pi_div_two, mul_zero, mul_one,
    zero_mul, one_mul, zero_add, add_zero]
  simp [asinSafe, divSafe, Real.arcsin_zero]

/-- Claim C5, counterexample: at declination 50°, hour angle 0°, latitude
0° (away from any zenith/pole singularity, since `cos(alt) = sin(50°) ≠ 0`
and `cos(lat) = 1`), the function returns azimuth exactly 360, which is
not in the half-open range [0, 360). -/
theorem RA_DEC_to_ALT_AZ_az_eq_360 :
    RA_DEC_to_ALT_AZ 0 50 0 0 = some (40, 360) ∧ ¬ ((360 : ℝ) < 360) := by
  have hpi := Real.pi_pos
  have habs : ¬ (1 < |Real.cos (5 * Real.pi / 18)|) :=
    not_lt.2 (Real.abs_cos_le_one _)
  have harcsin : Real.arcsin (Real.cos (5 * Real.pi / 18)) = 2 * Real.pi / 9 := by
    rw [← Real.sin_pi_div_two_sub,
      show Real.pi / 2 - 5 * Real.pi / 18 = 2 * Real.pi / 9 by ring]
    exact Real.arcsin_sin (by linarith) (by linarith)
  have hcos29 : Real.cos (2 * Real.pi / 9) = Real.sin (5 * Real.pi / 18) := by
    rw [show 2 * Real.pi / 9 = Real.pi / 2 - 5 * Real.pi / 18 by ring,
      Real.cos_pi_div_two_sub]
  have hsinpos : 0 < Real.sin (5 * Real.pi / 18) :=
    Real.sin_pos_of_pos_of_lt_pi (by linarith) (by linarith)
  have hrad40 : rad2deg (2 * Real.pi / 9) = 40 := by
    unfold rad2deg
    field_simp
    ring
  refine ⟨?_, lt_irrefl 360⟩
  simp only [RA_DEC_to_ALT_AZ, deg2rad_zero, deg2rad_fifty, Real.sin_zero,
    Real.cos_zero, mul_zero, mul_one, zero_add, add_zero, sub_zero]
  simp only [asinSafe, if_neg habs, Option.some_bind, harcsin, hcos29]
  simp only [divSafe, if_neg hsinpos.ne', div_self hsinpos.ne', Option.some_bind]
  simp only [acosSafe, abs_one, lt_irrefl, if_neg (lt_irrefl (1 : ℝ)),
    Real.arccos_one, Option.some_bind, lt_self_iff_false, if_neg (lt_irrefl (0 : ℝ)),
    rad2deg_zero, hrad40, sub_zero]
  simp [rad2deg_zero]

/-- Claim C5, amended: whenever the source's `RA_DEC_to_ALT_AZ` returns a
result at all (no division-by-zero and no inverse-trig domain error), the
altitude lies in [-90, 90] and the azimuth lies in the CLOSED interval
[0, 360]; the value 360 is attained, so the claimed half-open interval
[0, 360) does not hold. -/
theorem RA_DEC_to_ALT_AZ_bounds (raD decD haD latD alt az : ℝ)
    (h : RA_DEC_to_ALT_AZ raD decD haD latD = some (alt, az)) :
    -90 ≤ alt ∧ alt ≤ 90 ∧ 0 ≤ az ∧ az ≤ 360 := by
  simp only [RA_DEC_to_ALT_AZ, Option.bind_eq_some] at h
  obtain ⟨alt_r, h1, cos_a, h2, a_r, h3, h⟩ := h
  have halt : alt_r = Real.arcsin (Real.sin (deg2rad decD) * Real.sin (deg2rad latD) +
      Real.cos (deg2rad decD) * Real.cos (deg2rad latD) * Real.cos (deg2rad haD)) := by
    unfold asinSafe at h1
    split_ifs at h1
    injection h1 with hh
    exact hh.symm
  have ha : a_r = Real.arccos cos_a := by
    unfold acosSafe at h3
    split_ifs at h3
    injection h3 with hh
    exact hh.symm
  subst halt
  subst ha
  have hb1 := rad2deg_arcsin_mem (Real.sin (deg2rad decD) * Real.sin (deg2rad latD) +
    Real.cos (deg2rad decD) * Real.cos (deg2rad latD) * Real.cos (deg2rad haD))
  have hb2 := rad2deg_arccos_mem cos_a
  split_ifs at h with hha
  all_goals
    simp only [Option.some.injEq, Prod.mk.injEq] at h
    obtain ⟨rfl, rfl⟩ := h
  · exact ⟨hb1.1, hb1.2, hb2.1, by linarith [hb2.2]⟩
  · exact ⟨hb1.1, hb1.2, by linarith [hb2.2], by linarith [hb2.1]⟩

lemma RA_DEC_to_ALT_AZ_eval_simple : RA_DEC_to_ALT_AZ 0 0 90 0 = some (0, 270) := by
  simp only [RA_DEC_to_ALT_AZ, deg2rad_zero, deg2rad_ninety, Real.sin_zero,
    Real.cos_zero, Real.sin_pi_div_two, Real.cos_pi_div_two, mul_zero, mul_one,
    one_mul, zero_add, add_zero, zero_mul, sub_zero]
  have hn10 : ¬ ((1 : ℝ) < 0) := by norm_num
  simp [asinSafe, divSafe, acosSafe, Real.arcsin_zero, Real.arccos_zero, hn10]
  rw [rad2deg_zero, rad2deg_pi_div_two]
  norm_num

/-- Witness for the amended claim C5 at a concrete input: at declination
0°, hour angle 90°, latitude 0° the function returns altitude 0 and
azimuth 270, which satisfy the proved bounds. -/
theorem RA_DEC_to_ALT_AZ_bounds_witness :
    (-90 : ℝ) ≤ 0 ∧ (0 : ℝ) ≤ 90 ∧ (0 : ℝ) ≤ 270 ∧ (270 : ℝ) ≤ 360 :=
  RA_DEC_to_ALT_AZ_bounds 0 0 90 0 0 270 RA_DEC_to_ALT_AZ_eval_simple

end Dobby
